import Mathlib

/-!
Shallow embedding of the emby-collections reconciliation engine.

Each definition below is translated from one of the repository's Python
source files:
  * `src/collection_manager.py`  — matcher and collection reconciler
  * `src/emby_client.py`         — library gateway (metadata write path)
  * `src/metadata_tracker.py`    — metadata edit tracker
  * `src/mdblist_fetcher.py`     — MDBList provider adapter
  * `src/trakt_fetcher.py`       — Trakt provider adapter
  * `emby_collections.py`        — seasonal window evaluator

Modelling conventions:
  * Python strings are Lean `String`; a `None`-able string parameter is
    `Option String`, and Python truthiness of such a value (`None` and `""`
    are falsy) is `strTruthy`.
  * Python integers are `Nat`; a `None`-able int is `Option Nat`, with `0`
    falsy like in Python (`natTruthy`).
  * Python `set(...)` values are modelled as deduplicated lists
    (`List.dedup`); set cardinality is the length of such a list, set
    difference and intersection are `List.filter`.  Python's set iteration
    order is unspecified, so the concrete order our determinisation picks
    is irrelevant to every property proved below.
  * The float comparison `len(common)/len(words) >= 0.8` in
    `collection_manager.py` is modelled by the exact integer test
    `5 * len(common) >= 4 * len(words)`.  The two agree on every input the
    code can produce: the quotient is `a / b` with naturals `a ≤ b`,
    `b > 0`; the IEEE-754 double of `a / b` compares to the double literal
    `0.8` exactly as the rational `a / b` compares to `4 / 5` (when
    `a / b = 4 / 5` exactly, both sides round to the same double, and
    otherwise the gap `|a/b - 4/5| ≥ 1/(5b)` dwarfs the rounding error for
    any realistic word count), and `a / b ≥ 4 / 5 ↔ 5 * a ≥ 4 * b`.
  * HTTP transport, logging and on-disk persistence are out of scope (the
    spec's §6 boundary): gateway effects are recorded as `GatewayCall`
    values and interpreted against an explicit `EmbyState`.
-/

/-- Python truthiness of an optional string (`None` and `""` are falsy). -/
def strTruthy : Option String → Bool
  | none => false
  | some s => s ≠ ""

/-- Python truthiness of an optional integer (`None` and `0` are falsy). -/
def natTruthy : Option Nat → Bool
  | none => false
  | some n => n ≠ 0

/-- Python `x or y` on optional strings: keeps `x` when truthy, else `y`. -/
def pyOr (x y : Option String) : Option String :=
  if strTruthy x then x else y

/-! ## Library items and canonical movie records -/

/-- A library item as returned by the gateway's search endpoints:
`Id`, `Name`, `ProductionYear` and `ProviderIds.Imdb` (the code reads the
latter with `.get('ProviderIds', {}).get('Imdb', '')`, hence a plain
string defaulting to `""`). -/
structure EmbyItem where
  itemId : String
  itemName : String
  productionYear : Option Nat
  providerImdb : String
deriving DecidableEq, Repr

/-- Canonical movie record produced by the provider adapters and consumed
by the matcher / reconciler. -/
structure MovieRec where
  title : String
  year : Option Nat
  imdb_id : Option String
  tmdb_id : Option String
  list_rank : Option Nat
deriving DecidableEq, Repr

/-! ## Matcher: the title strategy of `_find_movie_in_library`
(`src/collection_manager.py`, lines 227-267) -/

/-- Worker for Python `s.split()`: walk the characters, collecting
maximal runs of non-whitespace (so empty fragments never appear). -/
def pyWordsAux : List Char → List Char → List String
  | [], acc => if acc = [] then [] else [String.mk acc.reverse]
  | c :: rest, acc =>
    if c.isWhitespace then
      if acc = [] then pyWordsAux rest []
      else String.mk acc.reverse :: pyWordsAux rest []
    else pyWordsAux rest (c :: acc)

/-- Python `s.split()`: split on whitespace, dropping empty fragments. -/
def pyWords (s : String) : List String :=
  pyWordsAux s.data []

/-- `set(title.lower().strip().split())` — the case-insensitive,
whitespace-normalised word set of a title, as a deduplicated list (the
`.strip()` is absorbed by the whitespace-dropping split). -/
def titleWordSet (s : String) : List String :=
  (pyWords (String.mk (s.data.map Char.toLower))).dedup

/-- The word-overlap similarity gate: both word sets must be non-empty and
the common words must cover at least 80% of each side
(`movie_coverage >= 0.8 and item_coverage >= 0.8`, written as the
equivalent exact integer comparison — see the header note). -/
def titleSimilar (movieTitle itemName : String) : Bool :=
  let movieWords := titleWordSet movieTitle
  let itemWords := titleWordSet itemName
  if movieWords ≠ [] ∧ itemWords ≠ [] then
    let commonWords := movieWords.filter (fun w => decide (w ∈ itemWords))
    decide (5 * commonWords.length ≥ 4 * movieWords.length) &&
      decide (5 * commonWords.length ≥ 4 * itemWords.length)
  else
    false

/-- Per-candidate acceptance inside the title-strategy loop: the item's
`ProductionYear` must be truthy and string-equal to the record's year, and
the titles must pass the word-overlap gate. -/
def titleCandidateOk (movieTitle : String) (movieYear : Nat) (item : EmbyItem) : Bool :=
  match item.productionYear with
  | none => false
  | some iy => iy ≠ 0 && toString iy == toString movieYear && titleSimilar movieTitle item.itemName

/-- The `title` matching strategy: skipped when the record's title or year
is falsy; otherwise the first search candidate passing `titleCandidateOk`
is returned, and no first-result fallback exists.  `items` is the list the
gateway returns for `search_items(search_term=title)`. -/
def findByTitle (m : MovieRec) (items : List EmbyItem) : Option EmbyItem :=
  if m.title = "" then none
  else
    match m.year with
    | none => none
    | some y => if y = 0 then none else items.find? (titleCandidateOk m.title y)

/-! ## Seasonal window evaluator
(`emby_collections.py`, `is_collection_in_season`, lines 138-178) -/

/-- The four month/day fields of a `seasonal:` configuration block, each
possibly missing. -/
structure SeasonalCfg where
  startMonth : Option Nat
  startDay : Option Nat
  endMonth : Option Nat
  endDay : Option Nat
deriving DecidableEq, Repr

/-- `is_collection_in_season`: no seasonal block, or an incomplete one,
means always in season; otherwise dates are compared as
`month * 100 + day`, with the wrap-around case when `start > end`. -/
def isCollectionInSeason (seasonal : Option SeasonalCfg) (curMonth curDay : Nat) : Bool :=
  match seasonal with
  | none => true
  | some s =>
    if !(natTruthy s.startMonth && natTruthy s.startDay &&
         natTruthy s.endMonth && natTruthy s.endDay) then
      true
    else
      let currentDate := curMonth * 100 + curDay
      let startDate := s.startMonth.getD 0 * 100 + s.startDay.getD 0
      let endDate := s.endMonth.getD 0 * 100 + s.endDay.getD 0
      if startDate ≤ endDate then
        decide (startDate ≤ currentDate ∧ currentDate ≤ endDate)
      else
        decide (currentDate ≥ startDate ∨ currentDate ≤ endDate)

/-! ## Provider adapters: IMDb id extraction
(`src/mdblist_fetcher.py`, `_extract_imdb_id`, lines 146-162;
`src/trakt_fetcher.py`, `_normalize_movie_data`, lines 169-204) -/

/-- The nested `id` object an MDBList record may carry. -/
structure MDBIdObj where
  imdb : Option String
  tmdb : Option String
deriving DecidableEq, Repr

/-- Raw MDBList record fields consulted by `_extract_imdb_id`; `idObj` is
`movie['id']` when that key holds a dict (a non-dict `id` value behaves
like an absent one, since `isinstance(movie['id'], dict)` fails and no
assignment happens). -/
structure RawMDBMovie where
  imdb_id : Option String
  imdbid : Option String
  idObj : Option MDBIdObj
deriving DecidableEq, Repr

/-- `MDBListFetcher._extract_imdb_id`: direct field, then `imdbid`, then
the nested id object; a truthy result lacking the `tt` prefix gets it
prepended. -/
def extract_imdb_id (m : RawMDBMovie) : Option String :=
  let i0 := pyOr m.imdb_id m.imdbid
  let i1 :=
    if !strTruthy i0 then
      match m.idObj with
      | some d => d.imdb
      | none => i0
    else i0
  if strTruthy i1 then
    let s := i1.getD ""
    -- `imdb_id.startswith('tt')`, written as a character-level test
    if s.data.take 2 = ['t', 't'] then some s else some ("tt" ++ s)
  else i1

/-- The `ids` object of a raw Trakt movie (`movie.get('ids', {})`). -/
structure TraktIds where
  imdb : Option String
  tmdb : Option String
deriving DecidableEq, Repr

/-- Raw Trakt movie fields consulted by `_normalize_movie_data`. -/
structure RawTraktMovie where
  title : Option String
  year : Option Nat
  ids : Option TraktIds
deriving DecidableEq, Repr

/-- `TraktFetcher._normalize_movie_data`: copies `ids.imdb` through
unchanged, stringifies a truthy `ids.tmdb`, and discards the record when
both ids are falsy. -/
def trakt_normalize (m : RawTraktMovie) : Option MovieRec :=
  let ids := m.ids.getD ⟨none, none⟩
  let normalized : MovieRec :=
    { title := (pyOr m.title (some "Unknown")).getD ""
      year := m.year
      imdb_id := ids.imdb
      tmdb_id := if strTruthy ids.tmdb then ids.tmdb else none
      list_rank := none }
  if strTruthy normalized.imdb_id || strTruthy normalized.tmdb_id then
    some normalized
  else
    none

/-! ## Gateway state and calls

The library gateway (spec §6) is modelled as an explicit state: the set of
collections it currently holds.  Mutating endpoints are recorded as
`GatewayCall` values and interpreted by `applyCall`; metadata and image
endpoints do not affect collection membership, so they leave this state
unchanged. -/

/-- A collection on the media server: opaque id, display name, ordered
member item ids. -/
structure Collection where
  collId : Nat
  collName : String
  items : List String
deriving DecidableEq, Repr

/-- Gateway server state: current collections plus a fresh-id counter used
when a collection is created. -/
structure EmbyState where
  collections : List Collection
  nextId : Nat
deriving DecidableEq, Repr

/-- One call to a gateway endpoint.  The first three mutate collection
membership; the remaining ones are metadata/image/delete endpoints. -/
inductive GatewayCall where
  | removeFromCollection (cid : Nat) (ids : List String)
  | addToCollection (cid : Nat) (ids : List String)
  | createCollection (name : String) (ids : List String)
  | updateMetadata (cid : Nat)
  | updateDisplayOrder (cid : Nat)
  | setImage (cid : Nat)
  | deleteCollection (cid : Nat)
deriving DecidableEq, Repr

/-- Server semantics of adding ids to a collection's member list: each id
not yet present is appended once (a collection holds each item at most
once). -/
def addItems : List String → List String → List String
  | items, [] => items
  | items, i :: rest =>
    if i ∈ items then addItems items rest else addItems (items ++ [i]) rest

/-- Interpret one gateway call against the server state. -/
def applyCall (st : EmbyState) : GatewayCall → EmbyState
  | .removeFromCollection cid ids =>
    { st with collections := st.collections.map (fun c =>
        if c.collId = cid then
          { c with items := c.items.filter (fun x => decide (x ∉ ids)) }
        else c) }
  | .addToCollection cid ids =>
    { st with collections := st.collections.map (fun c =>
        if c.collId = cid then { c with items := addItems c.items ids } else c) }
  | .createCollection name ids =>
    { st with
      collections := st.collections ++ [⟨st.nextId, name, addItems [] ids⟩]
      nextId := st.nextId + 1 }
  | .deleteCollection cid =>
    { st with collections := st.collections.filter (fun c => decide (c.collId ≠ cid)) }
  | _ => st

/-- Python `s.lower()` (character-wise lowercasing). -/
def lowerStr (s : String) : String :=
  String.mk (s.data.map Char.toLower)

/-- `get_collections(name=...)`: the caller-side exact case-insensitive
name filter of `EmbyClient.get_collections`. -/
def getCollections (st : EmbyState) (name : String) : List Collection :=
  st.collections.filter (fun c => lowerStr c.collName == lowerStr name)

/-- `get_collection_items`: the ordered member ids of a collection. -/
def getCollectionItems (st : EmbyState) (cid : Nat) : List String :=
  ((st.collections.find? (fun c => c.collId == cid)).map (·.items)).getD []

/-- Well-formedness of a reachable gateway state: collection ids are
pairwise distinct and below the fresh-id counter. -/
def EmbyState.WF (st : EmbyState) : Prop :=
  (st.collections.map (·.collId)).Nodup ∧ ∀ c ∈ st.collections, c.collId < st.nextId

/-! ## Reconciler: `_update_collection`
(`src/collection_manager.py`, lines 269-323) -/

/-- Python `set(a) == set(b)` on our deduplicated-list encoding of sets. -/
def setEqL (a b : List String) : Bool :=
  a.all (fun x => decide (x ∈ b)) && b.all (fun x => decide (x ∈ a))

/-- Result of `_update_collection`: the returned
`(added, removed, already_present)` counts plus the mutating gateway calls
the function issued. -/
structure UpdateOutcome where
  added : Nat
  removed : Nat
  stayed : Nat
  calls : List GatewayCall
deriving DecidableEq, Repr

/-- `CollectionManager._update_collection`: diff the current member set
against the desired ordered list; a no-op when nothing changed and order
cannot differ, otherwise a dry-run report or a full clear-and-rebuild. -/
def updateCollection (dryRun removeMissing : Bool) (cid : Nat)
    (currentItemIds desiredItemIds : List String) : UpdateOutcome :=
  let currentSet := currentItemIds.dedup
  let desiredSet := desiredItemIds.dedup
  let itemsChanged := !(setEqL currentSet desiredSet)
  let orderMightDiffer :=
    setEqL currentSet desiredSet && (currentItemIds.length == desiredItemIds.length)
  if !itemsChanged && !orderMightDiffer then
    ⟨0, 0, desiredItemIds.length, []⟩
  else if dryRun then
    let toAdd := desiredSet.filter (fun x => decide (x ∉ currentSet))
    let toRemove :=
      if removeMissing then currentSet.filter (fun x => decide (x ∉ desiredSet)) else []
    let alreadyPresent := (desiredSet.filter (fun x => decide (x ∈ currentSet))).length
    ⟨toAdd.length, toRemove.length, alreadyPresent, []⟩
  else
    let added := (desiredSet.filter (fun x => decide (x ∉ currentSet))).length
    let removed := (currentSet.filter (fun x => decide (x ∉ desiredSet))).length
    let stayed := (desiredSet.filter (fun x => decide (x ∈ currentSet))).length
    ⟨added, removed, stayed,
      [.removeFromCollection cid currentSet, .addToCollection cid desiredItemIds]⟩

/-! ## Metadata edit tracker (`src/metadata_tracker.py`) -/

/-- The tracker cache: an association list from `(collection_id, field)`
to the last value the tool wrote. -/
abbrev Tracker : Type := List ((Nat × String) × String)

/-- `MetadataTracker.get_tracked_value`. -/
def getTracked (tr : Tracker) (cid : Nat) (field : String) : Option String :=
  (tr.find? (fun e => decide (e.1 = (cid, field)))).map (·.2)

/-- `MetadataTracker.track_metadata`: overwrite or insert the entry for
`(cid, field)`. -/
def trackMetadata : Tracker → Nat → String → String → Tracker
  | [], cid, field, v => [((cid, field), v)]
  | e :: rest, cid, field, v =>
    if e.1 = (cid, field) then ((cid, field), v) :: rest
    else e :: trackMetadata rest cid field v

/-- `MetadataTracker.clear_collection`: drop every entry of a collection. -/
def clearCollectionTr (tr : Tracker) (cid : Nat) : Tracker :=
  tr.filter (fun e => decide (e.1.1 ≠ cid))

/-! ## Guarded metadata write path
(`src/emby_client.py`, `update_collection_metadata`, lines 591-702) -/

/-- The live metadata of a collection item as the gateway stores it; the
code reads each field with `.get(..., '')`, hence plain strings. -/
structure ItemMeta where
  overview : String
  sortName : String
  forcedSortName : String
  displayName : String
deriving DecidableEq, Repr

/-- One field block of `update_collection_metadata`: when the desired
value is truthy, either skip entirely (tracked value set and live value
diverged from it — a manual edit), or write-if-different and re-track. -/
def metaFieldStep (cid : Nat) (key : String) (desired : Option String)
    (getF : ItemMeta → String) (setF : ItemMeta → String → ItemMeta)
    (st : ItemMeta × Tracker × Bool) : ItemMeta × Tracker × Bool :=
  let item := st.1
  let tr := st.2.1
  let modified := st.2.2
  if strTruthy desired then
    let v := desired.getD ""
    let cur := getF item
    match getTracked tr cid key with
    | some t =>
      if cur ≠ t then (item, tr, modified)
      else
        ((if cur ≠ v then setF item v else item),
         trackMetadata tr cid key v, modified || decide (cur ≠ v))
    | none =>
      ((if cur ≠ v then setF item v else item),
       trackMetadata tr cid key v, modified || decide (cur ≠ v))
  else (item, tr, modified)

/-- The `if overview:` block of `update_collection_metadata`. -/
def overviewStep (cid : Nat) (d : Option String) (st : ItemMeta × Tracker × Bool) :
    ItemMeta × Tracker × Bool :=
  metaFieldStep cid "Overview" d (fun i => i.overview)
    (fun i v => { i with overview := v }) st

/-- The `if sort_name:` block of `update_collection_metadata` (it also
sets `ForcedSortName`). -/
def sortNameStep (cid : Nat) (d : Option String) (st : ItemMeta × Tracker × Bool) :
    ItemMeta × Tracker × Bool :=
  metaFieldStep cid "SortName" d (fun i => i.sortName)
    (fun i v => { i with sortName := v, forcedSortName := v }) st

/-- The `if name:` block of `update_collection_metadata`. -/
def nameStep (cid : Nat) (d : Option String) (st : ItemMeta × Tracker × Bool) :
    ItemMeta × Tracker × Bool :=
  metaFieldStep cid "Name" d (fun i => i.displayName)
    (fun i v => { i with displayName := v }) st

/-- `EmbyClient.update_collection_metadata` on the item's live metadata
and the tracker: processes Overview, SortName (also setting
ForcedSortName) and Name in order, then posts the item back only when a
field was modified (when nothing was modified the posted-back item would
equal the fetched one, so the resulting live metadata is the final item
either way). -/
def updateCollectionMetadata (cid : Nat) (overview sortName nameArg : Option String)
    (item : ItemMeta) (tr : Tracker) : Bool × ItemMeta × Tracker :=
  if !(strTruthy overview || strTruthy sortName || strTruthy nameArg) then
    (true, item, tr)
  else
    let s3 := nameStep cid nameArg
      (sortNameStep cid sortName (overviewStep cid overview (item, tr, false)))
    (true, s3.1, s3.2.1)

/-- The three tracked metadata fields of the claim. -/
inductive MetaField where
  | overviewF
  | sortNameF
  | nameF
deriving DecidableEq, Repr

/-- The tracker key the code uses for each field. -/
def MetaField.key : MetaField → String
  | .overviewF => "Overview"
  | .sortNameF => "SortName"
  | .nameF => "Name"

/-- The live value of each field. -/
def MetaField.get : MetaField → ItemMeta → String
  | .overviewF, i => i.overview
  | .sortNameF, i => i.sortName
  | .nameF, i => i.displayName

/-! ## Reconciler: `sync_collection` and `hide_collection`
(`src/collection_manager.py`, lines 37-166 and 386-411)

`_find_movie_in_library` only consults the gateway's item-search
endpoints, which read the media library, never collection membership; a
fixed library snapshot therefore determines a fixed matching function,
which we pass to the sync engine as `oracle`. -/

/-- Manager configuration flags used by the sync path. -/
structure SyncConfig where
  dryRun : Bool
  clearCollections : Bool
  removeMissing : Bool
deriving DecidableEq, Repr

/-- The stats dict returned by `sync_collection`. -/
structure SyncStats where
  added : Nat
  removed : Nat
  total : Nat
  notFound : Nat
  alreadyPresent : Nat
deriving DecidableEq, Repr

/-- The sort key `x.get('list_rank', 9999)`. -/
def rankKey (m : MovieRec) : Nat := m.list_rank.getD 9999

/-- Stable insertion of a movie after every already-placed movie of rank
not above its own (mirrors the stability of Python's `sorted`). -/
def insertByRank (m : MovieRec) : List MovieRec → List MovieRec
  | [] => [m]
  | x :: xs => if rankKey x ≤ rankKey m then x :: insertByRank m xs else m :: x :: xs

/-- Stable sort of the movie list by `list_rank`. -/
def sortByRank : List MovieRec → List MovieRec
  | [] => []
  | m :: ms => insertByRank m (sortByRank ms)

/-- `if movies and 'list_rank' in movies[0]: movies = sorted(...)`. -/
def sortStep (movies : List MovieRec) : List MovieRec :=
  match movies with
  | [] => movies
  | m :: _ => if m.list_rank.isSome then sortByRank movies else movies

/-- `CollectionManager.sync_collection`: sort, match, bail out when
nothing matched, then create or update the collection.  Returns the stats
dict, the gateway state after all issued calls, and the issued calls. -/
def syncCollection (cfg : SyncConfig) (oracle : MovieRec → Option String)
    (collectionName : String) (movies : List MovieRec)
    (overview imagePath displayOrder sortTitle : Option String)
    (st : EmbyState) : SyncStats × EmbyState × List GatewayCall :=
  let movies1 := sortStep movies
  let matchedItemIds := movies1.filterMap oracle
  let notFound := movies1.filter (fun m => (oracle m).isNone)
  if matchedItemIds.isEmpty then
    (⟨0, 0, movies.length, notFound.length, 0⟩, st, [])
  else
    match getCollections st collectionName with
    | c :: _ =>
      let metaCalls :=
        (if strTruthy overview || strTruthy sortTitle then
          [GatewayCall.updateMetadata c.collId] else [])
        ++ (if strTruthy displayOrder then
          [GatewayCall.updateDisplayOrder c.collId] else [])
        ++ (if strTruthy imagePath then [GatewayCall.setImage c.collId] else [])
      if cfg.clearCollections then
        -- `_clear_collection` (always reported successful in this model,
        -- where gateway calls do not fail) followed by a full re-add
        let currentItems := getCollectionItems st c.collId
        let clearCalls :=
          if currentItems.isEmpty then []
          else if cfg.dryRun then []
          else [GatewayCall.removeFromCollection c.collId currentItems]
        let addCalls :=
          if cfg.dryRun then [] else [GatewayCall.addToCollection c.collId matchedItemIds]
        let calls := metaCalls ++ clearCalls ++ addCalls
        (⟨matchedItemIds.length, 0, movies.length, notFound.length, 0⟩,
         calls.foldl applyCall st, calls)
      else
        let r := updateCollection cfg.dryRun cfg.removeMissing c.collId
          (getCollectionItems st c.collId) matchedItemIds
        let calls := metaCalls ++ r.calls
        (⟨r.added, r.removed, movies.length, notFound.length, r.stayed⟩,
         calls.foldl applyCall st, calls)
    | [] =>
      if cfg.dryRun then
        (⟨matchedItemIds.length, 0, movies.length, notFound.length, 0⟩, st, [])
      else
        let calls :=
          [GatewayCall.createCollection collectionName matchedItemIds]
          ++ (if strTruthy imagePath then [GatewayCall.setImage st.nextId] else [])
        (⟨matchedItemIds.length, 0, movies.length, notFound.length, 0⟩,
         calls.foldl applyCall st, calls)

/-- `CollectionManager.hide_collection`: look the collection up by name
and delete it (the tracker is not consulted anywhere on this path). -/
def hideCollection (dryRun : Bool) (collectionName : String)
    (st : EmbyState) (tr : Tracker) : Bool × EmbyState × Tracker × List GatewayCall :=
  match getCollections st collectionName with
  | [] => (true, st, tr, [])
  | c :: _ =>
    if dryRun then (true, st, tr, [])
    else (true, applyCall st (.deleteCollection c.collId), tr,
      [GatewayCall.deleteCollection c.collId])

/-! # Theorems -/

/-! ## C6 / C10: the title matching strategy -/

/-- `titleSimilar` unfolded into its semantic conditions. -/
theorem titleSimilar_iff (a b : String) :
    titleSimilar a b = true ↔
      titleWordSet a ≠ [] ∧ titleWordSet b ≠ [] ∧
      5 * ((titleWordSet a).filter (fun w => decide (w ∈ titleWordSet b))).length ≥
        4 * (titleWordSet a).length ∧
      5 * ((titleWordSet a).filter (fun w => decide (w ∈ titleWordSet b))).length ≥
        4 * (titleWordSet b).length := by
  unfold titleSimilar
  dsimp only
  split
  · next h => simp [h.1, h.2, and_assoc]
  · next h =>
    constructor
    · intro hc
      exact absurd hc (by simp)
    · intro hc
      exact absurd ⟨hc.1, hc.2.1⟩ h

/-- `titleCandidateOk` unfolded into its semantic conditions. -/
theorem titleCandidateOk_iff (t : String) (y : Nat) (item : EmbyItem) :
    titleCandidateOk t y item = true ↔
      ∃ iy, item.productionYear = some iy ∧ iy ≠ 0 ∧
        toString iy = toString y ∧ titleSimilar t item.itemName = true := by
  unfold titleCandidateOk
  cases h : item.productionYear with
  | none => simp
  | some iy => simp [h, and_assoc]

/-- C6: in the title matching strategy, for a record with a (truthy) year,
a candidate is returned only if its production year string-equals the
record's year and the word-overlap coverage is at least 80% from both
directions; the first passing candidate is returned and, when none passes,
the strategy yields no match.  In particular "Love" never matches
"Love the Coopers", while "The Dark Knight" matches an identical title of
equal year. -/
theorem C6_title_strategy (m : MovieRec) (items : List EmbyItem) (y : Nat)
    (hy : m.year = some y) (hy0 : y ≠ 0) (ht : m.title ≠ "") :
    (∀ item, findByTitle m items = some item →
      item ∈ items ∧
      (∃ iy, item.productionYear = some iy ∧ iy ≠ 0 ∧ toString iy = toString y) ∧
      titleWordSet m.title ≠ [] ∧ titleWordSet item.itemName ≠ [] ∧
      5 * ((titleWordSet m.title).filter
          (fun w => decide (w ∈ titleWordSet item.itemName))).length ≥
        4 * (titleWordSet m.title).length ∧
      5 * ((titleWordSet m.title).filter
          (fun w => decide (w ∈ titleWordSet item.itemName))).length ≥
        4 * (titleWordSet item.itemName).length) ∧
    ((∀ item ∈ items, titleCandidateOk m.title y item = false) →
      findByTitle m items = none) ∧
    (∀ l₁ item l₂, items = l₁ ++ item :: l₂ →
      titleCandidateOk m.title y item = true →
      (∀ u ∈ l₁, titleCandidateOk m.title y u = false) →
      findByTitle m items = some item) ∧
    findByTitle ⟨"Love", some 2015, none, none, none⟩
      [⟨"i1", "Love the Coopers", some 2015, ""⟩] = none ∧
    findByTitle ⟨"The Dark Knight", some 2008, none, none, none⟩
      [⟨"i2", "The Dark Knight", some 2008, ""⟩] =
      some ⟨"i2", "The Dark Knight", some 2008, ""⟩ := by
  have hfind : findByTitle m items = items.find? (titleCandidateOk m.title y) := by
    unfold findByTitle
    rw [if_neg ht, hy]
    dsimp only
    rw [if_neg hy0]
  refine ⟨?_, ?_, ?_, by decide, by decide⟩
  · intro item hit
    rw [hfind] at hit
    have hp := List.find?_some hit
    have hmem := List.mem_of_find?_eq_some hit
    rcases (titleCandidateOk_iff _ _ _).mp hp with ⟨iy, hiy, hiy0, hstr, hsim⟩
    rcases (titleSimilar_iff _ _).mp hsim with ⟨hne1, hne2, hc1, hc2⟩
    exact ⟨hmem, ⟨iy, hiy, hiy0, hstr⟩, hne1, hne2, hc1, hc2⟩
  · intro hall
    rw [hfind]
    exact List.find?_eq_none.mpr (by simpa using hall)
  · intro l₁ item l₂ hsplit hok hfail
    rw [hfind, hsplit]
    clear hfind hsplit
    induction l₁ with
    | nil => exact List.find?_cons_of_pos _ hok
    | cons u rest ih =>
      rw [List.cons_append, List.find?_cons_of_neg _ (by simpa using hfail u (by simp))]
      exact ih (fun v hv => hfail v (by simp [hv]))

/-- Concrete instantiation of `C6_title_strategy`. -/
theorem C6_title_strategy_witness :
    findByTitle ⟨"Dune", some 2021, none, none, none⟩ [] = none :=
  (C6_title_strategy ⟨"Dune", some 2021, none, none, none⟩ [] 2021
    rfl (by decide) (by decide)).2.1 (by simp)

/-- C10: the coverage ratios are computed only under the guard that both
word sets are non-empty (so the Python divisions have non-zero
denominators), and a record or item whose title normalises to an empty
word set can never produce a title match. -/
theorem C10_word_set_guard (m : MovieRec) (items : List EmbyItem) :
    (∀ a b : String, titleSimilar a b = true →
      0 < (titleWordSet a).length ∧ 0 < (titleWordSet b).length) ∧
    (titleWordSet m.title = [] → findByTitle m items = none) ∧
    (∀ item ∈ items, titleWordSet item.itemName = [] →
      findByTitle m items ≠ some item) := by
  have hsim : ∀ a b : String, titleSimilar a b = true →
      titleWordSet a ≠ [] ∧ titleWordSet b ≠ [] := by
    intro a b h
    have := (titleSimilar_iff a b).mp h
    exact ⟨this.1, this.2.1⟩
  refine ⟨?_, ?_, ?_⟩
  · intro a b h
    have := hsim a b h
    exact ⟨List.length_pos.mpr this.1, List.length_pos.mpr this.2⟩
  · intro hempty
    unfold findByTitle
    split
    · rfl
    · split
      · rfl
      · next y =>
        split
        · rfl
        · apply List.find?_eq_none.mpr
          intro item _ hok
          have hs := ((titleCandidateOk_iff _ _ _).mp (by simpa using hok)).choose_spec.2.2.2
          exact (hsim _ _ hs).1 hempty
  · intro item _ hempty hfound
    unfold findByTitle at hfound
    revert hfound
    split
    · simp
    · split
      · simp
      · split
        · simp
        · intro hfound
          have hp := List.find?_some hfound
          have hs := ((titleCandidateOk_iff _ _ _).mp hp).choose_spec.2.2.2
          exact absurd hempty (hsim _ _ hs).2

/-- Concrete instantiation of `C10_word_set_guard`: a record whose title
is only whitespace never matches. -/
theorem C10_word_set_guard_witness :
    findByTitle ⟨"   ", some 2000, none, none, none⟩
      [⟨"i1", "Anything", some 2000, ""⟩] = none :=
  (C10_word_set_guard ⟨"   ", some 2000, none, none, none⟩
    [⟨"i1", "Anything", some 2000, ""⟩]).2.1 (by decide)

/-! ## C7: seasonal window evaluation -/

/-- C7: for a complete seasonal window (all four fields present and
truthy), with dates encoded as `month * 100 + day`: when `start ≤ end`
the collection is in season iff `start ≤ now ≤ end`, and when
`start > end` iff `now ≥ start ∨ now ≤ end`; for start = Dec 15 and
end = Jan 5, Dec 20 and Jan 3 are in season while Jun 1 is not. -/
theorem C7_seasonal_window (sm sd em ed cm cd : Nat)
    (h1 : sm ≠ 0) (h2 : sd ≠ 0) (h3 : em ≠ 0) (h4 : ed ≠ 0) :
    (isCollectionInSeason (some ⟨some sm, some sd, some em, some ed⟩) cm cd = true ↔
      (if sm * 100 + sd ≤ em * 100 + ed then
        sm * 100 + sd ≤ cm * 100 + cd ∧ cm * 100 + cd ≤ em * 100 + ed
      else
        cm * 100 + cd ≥ sm * 100 + sd ∨ cm * 100 + cd ≤ em * 100 + ed)) ∧
    isCollectionInSeason (some ⟨some 12, some 15, some 1, some 5⟩) 12 20 = true ∧
    isCollectionInSeason (some ⟨some 12, some 15, some 1, some 5⟩) 1 3 = true ∧
    isCollectionInSeason (some ⟨some 12, some 15, some 1, some 5⟩) 6 1 = false := by
  refine ⟨?_, by decide, by decide, by decide⟩
  unfold isCollectionInSeason
  dsimp only
  rw [if_neg (by simp [natTruthy, h1, h2, h3, h4])]
  dsimp only [Option.getD]
  split
  · simp
  · simp

/-- Concrete instantiation of `C7_seasonal_window`. -/
theorem C7_seasonal_window_witness :
    isCollectionInSeason (some ⟨some 10, some 1, some 10, some 31⟩) 10 15 = true :=
  ((C7_seasonal_window 10 1 10 31 10 15 (by decide) (by decide) (by decide)
    (by decide)).1).mpr (by decide)

/-! ## C9: provider id canonicalisation -/

/-- C9 counterexample: the Trakt normaliser emits a canonical record whose
truthy `imdb_id` lacks the `tt` prefix (the claim asserts both adapters
prepend it). -/
theorem C9_counterexample_trakt_no_tt :
    trakt_normalize ⟨some "The Shawshank Redemption", some 1994,
        some ⟨some "0111161", none⟩⟩ =
      some ⟨"The Shawshank Redemption", some 1994, some "0111161", none, none⟩ ∧
    ("0111161".data.take 2 = ['t', 't']) = False := by
  constructor
  · rfl
  · decide

/-- Helper: the final `tt`-prefixing step of `_extract_imdb_id` always
yields a `tt`-prefixed truthy string. -/
theorem ttWrap_take_two (t : Option String) (s : String)
    (h : (if strTruthy t then
            (if (t.getD "").data.take 2 = ['t', 't'] then some (t.getD "")
             else some ("tt" ++ t.getD ""))
          else t) = some s) (hne : s ≠ "") : s.data.take 2 = ['t', 't'] := by
  cases t with
  | none => simp [strTruthy] at h
  | some u =>
    by_cases hu : u = ""
    · subst hu
      simp [strTruthy] at h
      exact absurd h.symm hne
    · rw [if_pos (by simp [strTruthy, hu])] at h
      simp only [Option.getD] at h
      split at h
      · next htt =>
        cases h
        exact htt
      · cases h
        simp [String.data_append]

/-- C9 amended: the MDBList extractor does canonicalise — every truthy
extracted id starts with `tt` — while the Trakt normaliser copies
`ids.imdb` through unchanged, so its records carry the `tt` prefix only
when the raw value already does. -/
theorem C9_amended_tt_handling :
    (∀ (m : RawMDBMovie) (s : String), extract_imdb_id m = some s → s ≠ "" →
      s.data.take 2 = ['t', 't']) ∧
    (∀ (m : RawTraktMovie) (r : MovieRec), trakt_normalize m = some r →
      r.imdb_id = (m.ids.getD ⟨none, none⟩).imdb) := by
  constructor
  · intro m s hex hne
    exact ttWrap_take_two _ s hex hne
  · intro m r hn
    unfold trakt_normalize at hn
    dsimp only at hn
    by_cases h2 : strTruthy (m.ids.getD ⟨none, none⟩).tmdb = true
    · rw [if_pos h2] at hn
      by_cases h1 : (strTruthy (m.ids.getD ⟨none, none⟩).imdb
          || strTruthy (m.ids.getD ⟨none, none⟩).tmdb) = true
      · rw [if_pos h1] at hn
        cases hn
        rfl
      · rw [if_neg h1] at hn
        cases hn
    · rw [if_neg h2] at hn
      by_cases h1 : (strTruthy (m.ids.getD ⟨none, none⟩).imdb
          || strTruthy (none : Option String)) = true
      · rw [if_pos h1] at hn
        cases hn
        rfl
      · rw [if_neg h1] at hn
        cases hn

/-- Concrete instantiation of `C9_amended_tt_handling`: a bare MDBList
numeric id is extracted in `tt`-prefixed form. -/
theorem C9_amended_tt_handling_witness :
    ("tt0137523".data.take 2 = ['t', 't']) ∧ 0 < (1 : Nat) :=
  ⟨C9_amended_tt_handling.1 ⟨some "0137523", none, none⟩ "tt0137523"
    (by decide) (by decide), by decide⟩

/-! ## C1 / C4: the `_update_collection` diff -/

/-- `setEqL` means mutual membership (Python set equality). -/
theorem setEqL_iff (a b : List String) :
    setEqL a b = true ↔ (∀ x ∈ a, x ∈ b) ∧ (∀ x ∈ b, x ∈ a) := by
  simp [setEqL, List.all_eq_true]

/-- The no-op guard of `_update_collection` holds exactly when the id sets
are equal while the two list lengths differ. -/
theorem updateCollection_noop_cond (cur des : List String) :
    ((!(!setEqL cur.dedup des.dedup) &&
      !(setEqL cur.dedup des.dedup && (cur.length == des.length))) = true) ↔
    (setEqL cur.dedup des.dedup = true ∧ cur.length ≠ des.length) := by
  cases hs : setEqL cur.dedup des.dedup <;> simp [hs]

/-- Branch characterisation: the no-op branch. -/
theorem updateCollection_eq_noop (dry rm : Bool) (cid : Nat) (cur des : List String)
    (h1 : setEqL cur.dedup des.dedup = true) (h2 : cur.length ≠ des.length) :
    updateCollection dry rm cid cur des = ⟨0, 0, des.length, []⟩ := by
  unfold updateCollection
  dsimp only
  rw [if_pos ((updateCollection_noop_cond cur des).mpr ⟨h1, h2⟩)]

/-- Branch characterisation: the dry-run report branch. -/
theorem updateCollection_eq_dry (rm : Bool) (cid : Nat) (cur des : List String)
    (h : ¬(setEqL cur.dedup des.dedup = true ∧ cur.length ≠ des.length)) :
    updateCollection true rm cid cur des =
      ⟨(des.dedup.filter (fun x => decide (x ∉ cur.dedup))).length,
       (if rm then cur.dedup.filter (fun x => decide (x ∉ des.dedup)) else []).length,
       (des.dedup.filter (fun x => decide (x ∈ cur.dedup))).length, []⟩ := by
  unfold updateCollection
  dsimp only
  rw [if_neg (fun hc => h ((updateCollection_noop_cond cur des).mp hc))]
  rw [if_pos rfl]

/-- Branch characterisation: the real clear-and-rebuild branch. -/
theorem updateCollection_eq_real (rm : Bool) (cid : Nat) (cur des : List String)
    (h : ¬(setEqL cur.dedup des.dedup = true ∧ cur.length ≠ des.length)) :
    updateCollection false rm cid cur des =
      ⟨(des.dedup.filter (fun x => decide (x ∉ cur.dedup))).length,
       (cur.dedup.filter (fun x => decide (x ∉ des.dedup))).length,
       (des.dedup.filter (fun x => decide (x ∈ cur.dedup))).length,
       [GatewayCall.removeFromCollection cid cur.dedup,
        GatewayCall.addToCollection cid des]⟩ := by
  unfold updateCollection
  dsimp only
  rw [if_neg (fun hc => h ((updateCollection_noop_cond cur des).mp hc))]
  rw [if_neg (by simp)]

/-- C1 counterexample: an existing collection whose stored order already
equals the desired list (`["a"]` vs `["a"]`) still triggers both mutating
gateway calls, contradicting the claimed fully idempotent no-op. -/
theorem C1_counterexample_identical_order_mutates :
    (updateCollection false true 7 ["a"] ["a"]).calls =
      [GatewayCall.removeFromCollection 7 ["a"], GatewayCall.addToCollection 7 ["a"]] ∧
    (updateCollection false true 7 ["a"] ["a"]).calls ≠ [] := by
  refine ⟨by decide, by decide⟩

/-- C1 amended: on a desired list identical to the current stored order
(current members pairwise distinct) the update path returns added = 0,
removed = 0, already_present = len(desired) as claimed — but it issues a
full rebuild (`remove_from_collection` of the current set, then
`add_to_collection` of the desired list) rather than no mutation; the
no-mutation branch fires exactly when the two id sets are equal while the
two list lengths differ. -/
theorem C1_amended_identical_order (cid : Nat) (cur : List String) (rm : Bool)
    (hnd : cur.Nodup) :
    updateCollection false rm cid cur cur =
      ⟨0, 0, cur.length,
        [GatewayCall.removeFromCollection cid cur, GatewayCall.addToCollection cid cur]⟩ ∧
    (∀ dcur ddes : List String,
      ((updateCollection false rm cid dcur ddes).calls = [] ↔
        (setEqL dcur.dedup ddes.dedup = true ∧ dcur.length ≠ ddes.length))) := by
  constructor
  · have hded : cur.dedup = cur := List.dedup_eq_self.mpr hnd
    rw [updateCollection_eq_real rm cid cur cur (fun hc => hc.2 rfl)]
    rw [hded]
    have hfil0 : cur.filter (fun x => decide (x ∉ cur)) = [] :=
      List.filter_eq_nil_iff.mpr (fun x hx => by simp [hx])
    have hfil1 : cur.filter (fun x => decide (x ∈ cur)) = cur :=
      List.filter_eq_self.mpr (fun x hx => by simpa using hx)
    rw [hfil0, hfil1]
    rfl
  · intro dcur ddes
    by_cases hc : setEqL dcur.dedup ddes.dedup = true ∧ dcur.length ≠ ddes.length
    · rw [updateCollection_eq_noop false rm cid dcur ddes hc.1 hc.2]
      simpa using hc
    · rw [updateCollection_eq_real rm cid dcur ddes hc]
      simpa using hc

/-- Concrete instantiation of `C1_amended_identical_order`. -/
theorem C1_amended_identical_order_witness :
    updateCollection false true 0 ["x", "y"] ["x", "y"] =
      ⟨0, 0, 2,
        [GatewayCall.removeFromCollection 0 ["x", "y"],
         GatewayCall.addToCollection 0 ["x", "y"]]⟩ :=
  (C1_amended_identical_order 0 ["x", "y"] true (by decide)).1

/-- C4 counterexample: with `remove_missing = False`, current member
`["a"]` and desired list `["b"]`, the dry-run branch reports removed = 0
while the real-run branch reports removed = 1, so the two branches'
counts differ, contradicting the claimed equality for every
configuration. -/
theorem C4_counterexample_remove_missing :
    (updateCollection true false 3 ["a"] ["b"]).removed = 0 ∧
    (updateCollection false false 3 ["a"] ["b"]).removed = 1 ∧
    (updateCollection true false 3 ["a"] ["b"]).calls = [] := by
  refine ⟨by decide, by decide, by decide⟩

/-- C4 amended: the dry-run branch never issues a mutating gateway call,
and with `remove_missing = True` its three counts equal the real-run
counts on every state; with `remove_missing = False` the added and
already-present counts still agree, and only the removed count can
diverge (the dry run reports 0 removals while the real rebuild still
removes every current member that is not desired). -/
theorem C4_amended_dry_run_parity (cid : Nat) (cur des : List String) :
    (∀ rm : Bool, (updateCollection true rm cid cur des).calls = []) ∧
    ((updateCollection true true cid cur des).added =
        (updateCollection false true cid cur des).added ∧
      (updateCollection true true cid cur des).removed =
        (updateCollection false true cid cur des).removed ∧
      (updateCollection true true cid cur des).stayed =
        (updateCollection false true cid cur des).stayed) ∧
    ((updateCollection true false cid cur des).added =
        (updateCollection false false cid cur des).added ∧
      (updateCollection true false cid cur des).stayed =
        (updateCollection false false cid cur des).stayed) := by
  by_cases hc : setEqL cur.dedup des.dedup = true ∧ cur.length ≠ des.length
  · refine ⟨fun rm => ?_, ?_, ?_⟩ <;>
      simp [updateCollection_eq_noop _ _ cid cur des hc.1 hc.2]
  · refine ⟨fun rm => ?_, ?_, ?_⟩ <;>
      simp [updateCollection_eq_dry _ cid cur des hc,
        updateCollection_eq_real _ cid cur des hc]

/-! ## C3 / C5: tracker behaviour and the guarded metadata write -/

/-- Tracker lookup after `track_metadata`: the written key now maps to the
new value and every other key is untouched. -/
theorem getTracked_trackMetadata (tr : Tracker) (cid : Nat) (f v : String)
    (cid2 : Nat) (f2 : String) :
    getTracked (trackMetadata tr cid f v) cid2 f2 =
      if (cid, f) = (cid2, f2) then some v else getTracked tr cid2 f2 := by
  induction tr with
  | nil =>
    by_cases h : (cid, f) = (cid2, f2) <;>
      simp [getTracked, trackMetadata, List.find?, h]
  | cons e rest ih =>
    unfold trackMetadata
    by_cases he : e.1 = (cid, f)
    · rw [if_pos he]
      by_cases h2 : (cid, f) = (cid2, f2)
      · simp [getTracked, List.find?, h2]
      · have hne : e.1 ≠ (cid2, f2) := by rw [he]; exact h2
        simp [getTracked, List.find?, h2, hne]
    · rw [if_neg he]
      by_cases hp : e.1 = (cid2, f2)
      · have h2 : (cid, f) ≠ (cid2, f2) := by
          intro hcontra
          exact he (hp.trans hcontra.symm)
        simp [getTracked, List.find?, hp, h2]
      · simpa [getTracked, List.find?, hp] using ih

/-- A field block leaves every projection the field setter does not touch
unchanged. -/
theorem metaFieldStep_item_proj (cid : Nat) (key : String) (d : Option String)
    (gF : ItemMeta → String) (sF : ItemMeta → String → ItemMeta)
    (g2 : ItemMeta → String) (hpres : ∀ i v, g2 (sF i v) = g2 i)
    (st : ItemMeta × Tracker × Bool) :
    g2 (metaFieldStep cid key d gF sF st).1 = g2 st.1 := by
  unfold metaFieldStep
  dsimp only
  split
  · split
    · split
      · rfl
      · dsimp only
        split
        · exact hpres _ _
        · rfl
    · dsimp only
      split
      · exact hpres _ _
      · rfl
  · rfl

/-- A field block leaves the tracked value of every other key unchanged. -/
theorem metaFieldStep_tracked_other (cid : Nat) (key : String) (d : Option String)
    (gF : ItemMeta → String) (sF : ItemMeta → String → ItemMeta)
    (st : ItemMeta × Tracker × Bool) (cid2 : Nat) (key2 : String)
    (hne : (cid, key) ≠ (cid2, key2)) :
    getTracked (metaFieldStep cid key d gF sF st).2.1 cid2 key2 =
      getTracked st.2.1 cid2 key2 := by
  unfold metaFieldStep
  dsimp only
  split
  · split
    · split
      · rfl
      · dsimp only
        rw [getTracked_trackMetadata, if_neg hne]
    · dsimp only
      rw [getTracked_trackMetadata, if_neg hne]
  · rfl

/-- A field block whose tracked value is set while the live value has
diverged from it does nothing at all (the manual-edit skip). -/
theorem metaFieldStep_skip (cid : Nat) (key : String) (d : Option String)
    (gF : ItemMeta → String) (sF : ItemMeta → String → ItemMeta)
    (st : ItemMeta × Tracker × Bool) (t : String)
    (h1 : getTracked st.2.1 cid key = some t) (h2 : gF st.1 ≠ t) :
    metaFieldStep cid key d gF sF st = st := by
  unfold metaFieldStep
  dsimp only
  split
  · rw [h1]
    dsimp only
    rw [if_pos h2]
  · rfl

/-- Projections untouched by each step. -/
theorem overviewStep_sortName (cid : Nat) (d : Option String)
    (st : ItemMeta × Tracker × Bool) :
    (overviewStep cid d st).1.sortName = st.1.sortName :=
  metaFieldStep_item_proj cid "Overview" d (fun i => i.overview)
    (fun i v => { i with overview := v }) (fun i => i.sortName) (fun _ _ => rfl) st

theorem overviewStep_displayName (cid : Nat) (d : Option String)
    (st : ItemMeta × Tracker × Bool) :
    (overviewStep cid d st).1.displayName = st.1.displayName :=
  metaFieldStep_item_proj cid "Overview" d (fun i => i.overview)
    (fun i v => { i with overview := v }) (fun i => i.displayName) (fun _ _ => rfl) st

theorem sortNameStep_overview (cid : Nat) (d : Option String)
    (st : ItemMeta × Tracker × Bool) :
    (sortNameStep cid d st).1.overview = st.1.overview :=
  metaFieldStep_item_proj cid "SortName" d (fun i => i.sortName)
    (fun i v => { i with sortName := v, forcedSortName := v })
    (fun i => i.overview) (fun _ _ => rfl) st

theorem sortNameStep_displayName (cid : Nat) (d : Option String)
    (st : ItemMeta × Tracker × Bool) :
    (sortNameStep cid d st).1.displayName = st.1.displayName :=
  metaFieldStep_item_proj cid "SortName" d (fun i => i.sortName)
    (fun i v => { i with sortName := v, forcedSortName := v })
    (fun i => i.displayName) (fun _ _ => rfl) st

theorem nameStep_overview (cid : Nat) (d : Option String)
    (st : ItemMeta × Tracker × Bool) :
    (nameStep cid d st).1.overview = st.1.overview :=
  metaFieldStep_item_proj cid "Name" d (fun i => i.displayName)
    (fun i v => { i with displayName := v }) (fun i => i.overview) (fun _ _ => rfl) st

theorem nameStep_sortName (cid : Nat) (d : Option String)
    (st : ItemMeta × Tracker × Bool) :
    (nameStep cid d st).1.sortName = st.1.sortName :=
  metaFieldStep_item_proj cid "Name" d (fun i => i.displayName)
    (fun i v => { i with displayName := v }) (fun i => i.sortName) (fun _ _ => rfl) st

/-- Tracked keys untouched by each step. -/
theorem overviewStep_tracked (cid : Nat) (d : Option String)
    (st : ItemMeta × Tracker × Bool) (cid2 : Nat) (key2 : String)
    (hne : (cid, "Overview") ≠ (cid2, key2)) :
    getTracked (overviewStep cid d st).2.1 cid2 key2 = getTracked st.2.1 cid2 key2 :=
  metaFieldStep_tracked_other _ _ _ _ _ _ _ _ hne

theorem sortNameStep_tracked (cid : Nat) (d : Option String)
    (st : ItemMeta × Tracker × Bool) (cid2 : Nat) (key2 : String)
    (hne : (cid, "SortName") ≠ (cid2, key2)) :
    getTracked (sortNameStep cid d st).2.1 cid2 key2 = getTracked st.2.1 cid2 key2 :=
  metaFieldStep_tracked_other _ _ _ _ _ _ _ _ hne

theorem nameStep_tracked (cid : Nat) (d : Option String)
    (st : ItemMeta × Tracker × Bool) (cid2 : Nat) (key2 : String)
    (hne : (cid, "Name") ≠ (cid2, key2)) :
    getTracked (nameStep cid d st).2.1 cid2 key2 = getTracked st.2.1 cid2 key2 :=
  metaFieldStep_tracked_other _ _ _ _ _ _ _ _ hne

/-- The manual-edit skip, per step. -/
theorem overviewStep_skip (cid : Nat) (d : Option String)
    (st : ItemMeta × Tracker × Bool) (t : String)
    (h1 : getTracked st.2.1 cid "Overview" = some t) (h2 : st.1.overview ≠ t) :
    overviewStep cid d st = st :=
  metaFieldStep_skip _ _ _ _ _ _ t h1 h2

theorem sortNameStep_skip (cid : Nat) (d : Option String)
    (st : ItemMeta × Tracker × Bool) (t : String)
    (h1 : getTracked st.2.1 cid "SortName" = some t) (h2 : st.1.sortName ≠ t) :
    sortNameStep cid d st = st :=
  metaFieldStep_skip _ _ _ _ _ _ t h1 h2

theorem nameStep_skip (cid : Nat) (d : Option String)
    (st : ItemMeta × Tracker × Bool) (t : String)
    (h1 : getTracked st.2.1 cid "Name" = some t) (h2 : st.1.displayName ≠ t) :
    nameStep cid d st = st :=
  metaFieldStep_skip _ _ _ _ _ _ t h1 h2

/-- C3: for every tracked field (Overview, SortName, Name), when the
tracker holds value A, the live gateway value B has diverged (B ≠ A), and
`update_collection_metadata` is called with any desired value, the write
is skipped entirely: the live value stays B and the tracked value stays
A. -/
theorem C3_manual_edit_preserved (fld : MetaField) (cid : Nat)
    (ov sn nm : Option String) (item : ItemMeta) (tr : Tracker) (A : String)
    (htr : getTracked tr cid fld.key = some A)
    (hdiv : fld.get item ≠ A) :
    fld.get (updateCollectionMetadata cid ov sn nm item tr).2.1 = fld.get item ∧
    getTracked (updateCollectionMetadata cid ov sn nm item tr).2.2 cid fld.key
      = some A := by
  unfold updateCollectionMetadata
  cases hall : (strTruthy ov || strTruthy sn || strTruthy nm) with
  | false =>
    rw [if_pos (show (!false) = true from rfl)]
    exact ⟨rfl, htr⟩
  | true =>
    rw [if_neg (show ¬((!true) = true) by simp)]
    dsimp only
    cases fld with
    | overviewF =>
      dsimp only [MetaField.get, MetaField.key] at htr hdiv ⊢
      rw [overviewStep_skip cid ov (item, tr, false) A htr hdiv]
      constructor
      · rw [nameStep_overview, sortNameStep_overview]
      · rw [nameStep_tracked _ _ _ _ _ (by simp),
          sortNameStep_tracked _ _ _ _ _ (by simp)]
        exact htr
    | sortNameF =>
      dsimp only [MetaField.get, MetaField.key] at htr hdiv ⊢
      have ht1 : getTracked (overviewStep cid ov (item, tr, false)).2.1 cid "SortName"
          = some A := by
        rw [overviewStep_tracked _ _ _ _ _ (by simp)]
        exact htr
      have hi1 : (overviewStep cid ov (item, tr, false)).1.sortName = item.sortName :=
        overviewStep_sortName _ _ _
      rw [sortNameStep_skip cid sn _ A ht1 (by rw [hi1]; exact hdiv)]
      constructor
      · rw [nameStep_sortName]
        exact hi1
      · rw [nameStep_tracked _ _ _ _ _ (by simp)]
        exact ht1
    | nameF =>
      dsimp only [MetaField.get, MetaField.key] at htr hdiv ⊢
      have ht1 : getTracked (overviewStep cid ov (item, tr, false)).2.1 cid "Name"
          = some A := by
        rw [overviewStep_tracked _ _ _ _ _ (by simp)]
        exact htr
      have ht2 : getTracked
          (sortNameStep cid sn (overviewStep cid ov (item, tr, false))).2.1 cid "Name"
          = some A := by
        rw [sortNameStep_tracked _ _ _ _ _ (by simp)]
        exact ht1
      have hi2 : (sortNameStep cid sn (overviewStep cid ov (item, tr, false))).1.displayName
          = item.displayName := by
        rw [sortNameStep_displayName, overviewStep_displayName]
      rw [nameStep_skip cid nm _ A ht2 (by rw [hi2]; exact hdiv)]
      exact ⟨hi2, ht2⟩

/-- Concrete instantiation of `C3_manual_edit_preserved`: tracked
Overview "A", live value manually changed to "B", desired value "C" —
the live value stays "B" and the tracker keeps "A". -/
theorem C3_manual_edit_preserved_witness :
    (updateCollectionMetadata 0 (some "C") none none
      ⟨"B", "", "", "Holiday Picks"⟩ [((0, "Overview"), "A")]).2.1.overview = "B" ∧
    getTracked (updateCollectionMetadata 0 (some "C") none none
      ⟨"B", "", "", "Holiday Picks"⟩ [((0, "Overview"), "A")]).2.2 0 "Overview"
      = some "A" := by
  have h := C3_manual_edit_preserved MetaField.overviewF 0 (some "C") none none
    ⟨"B", "", "", "Holiday Picks"⟩ [((0, "Overview"), "A")] "A" (by decide) (by decide)
  exact h

/-- C5 counterexample: `hide_collection` deletes the collection entity but
leaves the tracker untouched, so after the deletion the tracker still
holds the collection's entries — the claimed forget-on-delete never
happens. -/
theorem C5_counterexample_hide_keeps_tracker :
    (hideCollection false "Halloween" ⟨[⟨0, "Halloween", ["m1"]⟩], 1⟩
        [((0, "Overview"), "A")]).2.1.collections = [] ∧
    (hideCollection false "Halloween" ⟨[⟨0, "Halloween", ["m1"]⟩], 1⟩
        [((0, "Overview"), "A")]).2.2.1 = [((0, "Overview"), "A")] ∧
    getTracked (hideCollection false "Halloween" ⟨[⟨0, "Halloween", ["m1"]⟩], 1⟩
        [((0, "Overview"), "A")]).2.2.1 0 "Overview" = some "A" := by
  refine ⟨by decide, by decide, by decide⟩

/-- C5 amended: tracker entries are indeed removed only by
`clear_collection` — `track_metadata` only overwrites the written key and
`clear_collection` removes every entry of the collection — but no
deletion path ever invokes it: `hide_collection` returns the tracker
unchanged, so entries for a deleted collection persist. -/
theorem C5_amended_no_forget_on_delete :
    (∀ (dry : Bool) (name : String) (st : EmbyState) (tr : Tracker),
      (hideCollection dry name st tr).2.2.1 = tr) ∧
    (∀ (tr : Tracker) (cid : Nat) (f v : String) (cid2 : Nat) (f2 : String),
      getTracked (trackMetadata tr cid f v) cid2 f2 =
        if (cid, f) = (cid2, f2) then some v else getTracked tr cid2 f2) ∧
    (∀ (tr : Tracker) (cid : Nat) (f : String),
      getTracked (clearCollectionTr tr cid) cid f = none) := by
  refine ⟨?_, getTracked_trackMetadata, ?_⟩
  · intro dry name st tr
    unfold hideCollection
    cases h : getCollections st name with
    | nil => rfl
    | cons c rest =>
      dsimp only
      split
      · rfl
      · rfl
  · intro tr cid f
    unfold getTracked clearCollectionTr
    have hnone : (tr.filter (fun e => decide (e.1.1 ≠ cid))).find?
        (fun e => decide (e.1 = (cid, f))) = none := by
      apply List.find?_eq_none.mpr
      intro e he
      have h1 := (List.mem_filter.mp he).2
      simp only [decide_eq_true_eq] at h1 ⊢
      intro heq
      exact h1 (by rw [heq])
    rw [hnone]
    rfl

/-! ## C2 / C8: the sync engine -/

/-- Inserting by rank permutes. -/
theorem insertByRank_perm (m : MovieRec) (l : List MovieRec) :
    (insertByRank m l).Perm (m :: l) := by
  induction l with
  | nil => exact List.Perm.refl _
  | cons x xs ih =>
    unfold insertByRank
    split
    · exact (ih.cons x).trans (List.Perm.swap m x xs)
    · exact List.Perm.refl _

/-- Sorting by rank permutes. -/
theorem sortByRank_perm (l : List MovieRec) : (sortByRank l).Perm l := by
  induction l with
  | nil => exact List.Perm.refl _
  | cons m ms ih => exact (insertByRank_perm m (sortByRank ms)).trans (ih.cons m)

/-- The conditional rank sort permutes. -/
theorem sortStep_perm (l : List MovieRec) : (sortStep l).Perm l := by
  cases l with
  | nil => exact List.Perm.refl _
  | cons m ms =>
    show (if m.list_rank.isSome = true then sortByRank (m :: ms) else m :: ms).Perm _
    by_cases h : m.list_rank.isSome = true
    · rw [if_pos h]
      exact sortByRank_perm _
    · rw [if_neg h]

/-- `filterMap` over a list on which the function is total keeps the
length. -/
theorem filterMap_length_all_some (l : List MovieRec) (f : MovieRec → Option String)
    (h : ∀ m ∈ l, (f m).isSome) : (l.filterMap f).length = l.length := by
  induction l with
  | nil => rfl
  | cons m ms ih =>
    rw [List.filterMap_cons]
    cases hf : f m with
    | none => exact absurd (hf ▸ h m (by simp)) (by simp)
    | some v =>
      simp only [List.length_cons]
      rw [ih (fun x hx => h x (by simp [hx]))]

/-- Membership in `addItems`. -/
theorem mem_addItems (items ids : List String) (x : String) :
    x ∈ addItems items ids ↔ x ∈ items ∨ x ∈ ids := by
  induction ids generalizing items with
  | nil => simp [addItems]
  | cons i rest ih =>
    unfold addItems
    split
    · next hmem =>
      rw [ih, List.mem_cons]
      constructor
      · rintro (h | h)
        · exact Or.inl h
        · exact Or.inr (Or.inr h)
      · rintro (h | h | h)
        · exact Or.inl h
        · exact Or.inl (h ▸ hmem)
        · exact Or.inr h
    · rw [ih]
      simp [or_assoc]

/-- `addItems` preserves freedom from duplicates. -/
theorem addItems_nodup (items ids : List String) (h : items.Nodup) :
    (addItems items ids).Nodup := by
  induction ids generalizing items with
  | nil => exact h
  | cons i rest ih =>
    unfold addItems
    split
    · exact ih items h
    · next hni =>
      apply ih
      apply List.Nodup.append h (List.nodup_singleton i)
      intro a ha hb
      rw [List.mem_singleton] at hb
      exact hni (hb ▸ ha)

/-- A list filtered by non-membership in its own dedup vanishes. -/
theorem filter_not_mem_dedup (l : List String) :
    l.filter (fun x => decide (x ∉ l.dedup)) = [] :=
  List.filter_eq_nil_iff.mpr (fun x hx => by simp [List.mem_dedup, hx])

/-- The `_update_collection` counts on any current list with the same
members as the desired list: added 0, removed 0, already_present the
desired length (this covers both the rebuild and the no-op branch). -/
theorem updateCollection_same_members (rm : Bool) (cid : Nat) (cur des : List String)
    (hnd : cur.Nodup) (hm : ∀ x, x ∈ cur ↔ x ∈ des) :
    (updateCollection false rm cid cur des).added = 0 ∧
    (updateCollection false rm cid cur des).removed = 0 ∧
    (updateCollection false rm cid cur des).stayed = des.length := by
  have hded : cur.dedup = cur := List.dedup_eq_self.mpr hnd
  have hset : setEqL cur.dedup des.dedup = true := by
    rw [hded]
    apply (setEqL_iff _ _).mpr
    constructor
    · intro x hx
      exact List.mem_dedup.mpr ((hm x).mp hx)
    · intro x hx
      exact (hm x).mpr (List.mem_dedup.mp hx)
  by_cases hl : cur.length = des.length
  · rw [updateCollection_eq_real rm cid cur des (fun hc => hc.2 hl)]
    rw [hded]
    have h1 : des.dedup.filter (fun x => decide (x ∉ cur)) = [] :=
      List.filter_eq_nil_iff.mpr
        (fun x hx => by simpa using (hm x).mpr (List.mem_dedup.mp hx))
    have h2 : cur.filter (fun x => decide (x ∉ des.dedup)) = [] :=
      List.filter_eq_nil_iff.mpr
        (fun x hx => by simpa using List.mem_dedup.mpr ((hm x).mp hx))
    have h3 : des.dedup.filter (fun x => decide (x ∈ cur)) = des.dedup :=
      List.filter_eq_self.mpr
        (fun x hx => by simpa using (hm x).mpr (List.mem_dedup.mp hx))
    have h4 : des.dedup.length = des.length := by
      have hp : des.dedup.length = cur.length :=
        ((List.perm_ext_iff_of_nodup (List.nodup_dedup des) hnd).mpr
          (fun x => by rw [List.mem_dedup]; exact (hm x).symm)).length_eq
      exact hp.trans hl
    rw [h1, h2, h3]
    exact ⟨rfl, rfl, h4⟩
  · rw [updateCollection_eq_noop false rm cid cur des hset hl]
    exact ⟨rfl, rfl, rfl⟩

/-- The metadata / display-order / image calls change no gateway state. -/
theorem metaCalls_foldl (b1 b2 b3 : Bool) (cid : Nat) (st : EmbyState) :
    ((((if b1 then [GatewayCall.updateMetadata cid] else []) ++
       (if b2 then [GatewayCall.updateDisplayOrder cid] else [])) ++
      (if b3 then [GatewayCall.setImage cid] else [])).foldl applyCall st) = st := by
  cases b1 <;> cases b2 <;> cases b3 <;> rfl

/-- The create-path calls reduce to the create call itself. -/
theorem createCalls_foldl (b : Bool) (nm : String) (ids : List String) (cid : Nat)
    (st : EmbyState) :
    (([GatewayCall.createCollection nm ids] ++
      (if b then [GatewayCall.setImage cid] else [])).foldl applyCall st) =
      applyCall st (GatewayCall.createCollection nm ids) := by
  cases b <;> rfl

/-- C8: when no record matches a library item, `sync_collection` leaves
the gateway completely untouched — no create, metadata, image or
membership call, state unchanged — and returns
added = removed = already_present = 0 with not_found equal to the number
of (all unmatched) records. -/
theorem C8_empty_match_untouched (cfg : SyncConfig) (oracle : MovieRec → Option String)
    (name : String) (movies : List MovieRec) (ov ip dOrd stt : Option String)
    (st : EmbyState) (hnone : ∀ m ∈ movies, oracle m = none) :
    syncCollection cfg oracle name movies ov ip dOrd stt st =
      (⟨0, 0, movies.length, movies.length, 0⟩, st, []) := by
  have hperm := sortStep_perm movies
  have h1 : ∀ m ∈ sortStep movies, oracle m = none :=
    fun m hm => hnone m (hperm.mem_iff.mp hm)
  unfold syncCollection
  dsimp only
  have hmat : (sortStep movies).filterMap oracle = [] :=
    List.filterMap_eq_nil_iff.mpr h1
  rw [hmat]
  rw [if_pos (show ([] : List String).isEmpty = true from rfl)]
  have hnf : (sortStep movies).filter (fun m => (oracle m).isNone) = sortStep movies :=
    List.filter_eq_self.mpr (fun a ha => by rw [h1 a ha]; rfl)
  rw [hnf, hperm.length_eq]

/-- Concrete instantiation of `C8_empty_match_untouched`. -/
theorem C8_empty_match_untouched_witness :
    syncCollection ⟨false, false, true⟩ (fun _ => none) "Trending"
      [⟨"Dune", some 2021, some "tt1160419", none, none⟩] none none none none
      ⟨[⟨0, "Trending", ["m9"]⟩], 1⟩ =
      (⟨0, 0, 1, 1, 0⟩, ⟨[⟨0, "Trending", ["m9"]⟩], 1⟩, []) :=
  C8_empty_match_untouched ⟨false, false, true⟩ (fun _ => none) "Trending"
    [⟨"Dune", some 2021, some "tt1160419", none, none⟩] none none none none
    ⟨[⟨0, "Trending", ["m9"]⟩], 1⟩ (fun _ _ => rfl)

/-- With pairwise-distinct collection ids, looking a member collection up
by its id finds exactly it. -/
theorem find?_collId_of_nodup (l : List Collection) (c : Collection)
    (hnd : (l.map (fun x => x.collId)).Nodup) (hc : c ∈ l) :
    l.find? (fun x => x.collId == c.collId) = some c := by
  induction l with
  | nil => cases hc
  | cons x rest ih =>
    rw [List.map_cons, List.nodup_cons] at hnd
    rcases List.mem_cons.mp hc with hcx | hcr
    · subst hcx
      exact List.find?_cons_of_pos _ (by simp)
    · have hx : x.collId ≠ c.collId := by
        intro he
        exact hnd.1 (he ▸ List.mem_map.mpr ⟨c, hcr, rfl⟩)
      rw [List.find?_cons_of_neg _ (by simp [hx])]
      exact ih hnd.2 hcr

/-- `get_collection_items` on a member collection returns its items. -/
theorem getCollectionItems_of_mem (st : EmbyState) (c : Collection)
    (hnd : (st.collections.map (fun x => x.collId)).Nodup)
    (hc : c ∈ st.collections) :
    getCollectionItems st c.collId = c.items := by
  unfold getCollectionItems
  rw [find?_collId_of_nodup st.collections c hnd hc]
  rfl

/-- The head of a `get_collections(name)` result is a member collection
whose lowered name matches. -/
theorem getCollections_head_mem (st : EmbyState) (name : String) (c : Collection)
    (rest : List Collection) (h : getCollections st name = c :: rest) :
    c ∈ st.collections ∧ (lowerStr c.collName == lowerStr name) = true := by
  have hm : c ∈ getCollections st name := by
    rw [h]
    exact List.mem_cons_self c rest
  unfold getCollections at hm
  exact ⟨(List.mem_filter.mp hm).1, (List.mem_filter.mp hm).2⟩

/-- The remove-all-then-add-desired rebuild, as one state transformation. -/
theorem rebuild_state (st : EmbyState) (cid : Nat) (rmids addids : List String) :
    [GatewayCall.removeFromCollection cid rmids,
     GatewayCall.addToCollection cid addids].foldl applyCall st =
    { st with collections := st.collections.map (fun c =>
        if c.collId = cid then
          { c with items := addItems (c.items.filter (fun x => decide (x ∉ rmids))) addids }
        else c) } := by
  have h1 : ∀ cc : Collection,
      (fun c => if c.collId = cid then { c with items := addItems c.items addids } else c)
        ((fun c => if c.collId = cid then
          { c with items := c.items.filter (fun x => decide (x ∉ rmids)) } else c) cc)
      = (if cc.collId = cid then
          { cc with items := addItems (cc.items.filter (fun x => decide (x ∉ rmids))) addids }
        else cc) := by
    intro cc
    by_cases hcc : cc.collId = cid
    · simp [hcc]
    · simp [hcc]
  show applyCall (applyCall st (GatewayCall.removeFromCollection cid rmids))
      (GatewayCall.addToCollection cid addids) = _
  unfold applyCall
  dsimp only
  rw [List.map_map]
  exact congrArg (fun cols => { st with collections := cols })
    (List.map_congr_left (fun a _ => h1 a))

/-- `get_collections` commutes with an items-only rewrite of the state. -/
theorem getCollections_map_items (st : EmbyState) (name : String)
    (g : Collection → Collection) (hg : ∀ c, (g c).collName = c.collName) :
    getCollections { st with collections := st.collections.map g } name =
      (getCollections st name).map g := by
  unfold getCollections
  dsimp only
  rw [List.filter_map]
  exact congrArg (List.map g)
    (List.filter_congr (fun a _ => by simp [Function.comp, hg]))

/-- `get_collection_items` on an id-preserving rewrite of the state. -/
theorem getCollectionItems_map (st : EmbyState) (cid : Nat)
    (g : Collection → Collection) (hg : ∀ c, (g c).collId = c.collId) :
    getCollectionItems { st with collections := st.collections.map g } cid =
      ((((st.collections.find? (fun c => c.collId == cid)).map g).map
        (fun c => c.items)).getD []) := by
  unfold getCollectionItems
  dsimp only
  rw [List.find?_map]
  have hpg : ((fun c : Collection => c.collId == cid) ∘ g)
      = (fun c : Collection => c.collId == cid) := by
    funext c
    simp [Function.comp, hg]
  rw [hpg]

/-- One sync run through the existing-collection update path (no
clear-mode): the stats come from `_update_collection` and the state is
its calls applied to the input state. -/
theorem sync_update_path (cfg : SyncConfig) (oracle : MovieRec → Option String)
    (name : String) (movies : List MovieRec) (ov ip dOrd stt : Option String)
    (st : EmbyState) (c : Collection) (rest : List Collection) (r : UpdateOutcome)
    (hclear : cfg.clearCollections = false)
    (hfound : getCollections st name = c :: rest)
    (hne : ((sortStep movies).filterMap oracle).isEmpty = false)
    (hr : r = updateCollection cfg.dryRun cfg.removeMissing c.collId
      (getCollectionItems st c.collId) ((sortStep movies).filterMap oracle)) :
    (syncCollection cfg oracle name movies ov ip dOrd stt st).1.added = r.added ∧
    (syncCollection cfg oracle name movies ov ip dOrd stt st).1.removed = r.removed ∧
    (syncCollection cfg oracle name movies ov ip dOrd stt st).1.alreadyPresent
      = r.stayed ∧
    (syncCollection cfg oracle name movies ov ip dOrd stt st).2.1 =
      r.calls.foldl applyCall st := by
  subst hr
  unfold syncCollection
  dsimp only
  rw [hne]
  rw [if_neg (by simp)]
  rw [hfound]
  dsimp only
  rw [hclear]
  rw [if_neg (by simp)]
  refine ⟨rfl, rfl, rfl, ?_⟩
  rw [List.foldl_append, metaCalls_foldl]

/-- One sync run through the create path in real mode: the state gains the
created collection. -/
theorem sync_create_path (cfg : SyncConfig) (oracle : MovieRec → Option String)
    (name : String) (movies : List MovieRec) (ov ip dOrd stt : Option String)
    (st : EmbyState)
    (hdry : cfg.dryRun = false)
    (hfound : getCollections st name = [])
    (hne : ((sortStep movies).filterMap oracle).isEmpty = false) :
    (syncCollection cfg oracle name movies ov ip dOrd stt st).2.1 =
      applyCall st (GatewayCall.createCollection name
        ((sortStep movies).filterMap oracle)) := by
  unfold syncCollection
  dsimp only
  rw [hne]
  rw [if_neg (by simp)]
  rw [hfound]
  dsimp only
  rw [hdry]
  rw [if_neg (by simp)]
  exact createCalls_foldl _ _ _ _ _

/-- The per-collection effect of the rebuild (remove-all, then add the
desired ids), used to describe the state after a rebuild run. -/
def rebuildUpd (cid : Nat) (rmids addids : List String) (c : Collection) : Collection :=
  if c.collId = cid then
    { c with items := addItems (c.items.filter (fun x => decide (x ∉ rmids))) addids }
  else c

theorem rebuild_state_upd (st : EmbyState) (cid : Nat) (rmids addids : List String) :
    [GatewayCall.removeFromCollection cid rmids,
     GatewayCall.addToCollection cid addids].foldl applyCall st =
    { st with collections := st.collections.map (rebuildUpd cid rmids addids) } :=
  rebuild_state st cid rmids addids

theorem rebuildUpd_collName (cid : Nat) (rmids addids : List String) (c : Collection) :
    (rebuildUpd cid rmids addids c).collName = c.collName := by
  unfold rebuildUpd
  split <;> rfl

theorem rebuildUpd_collId (cid : Nat) (rmids addids : List String) (c : Collection) :
    (rebuildUpd cid rmids addids c).collId = c.collId := by
  unfold rebuildUpd
  split <;> rfl

theorem rebuildUpd_self_items (addids : List String) (c : Collection) :
    (rebuildUpd c.collId c.items.dedup addids c).items = addItems [] addids := by
  unfold rebuildUpd
  rw [if_pos rfl]
  dsimp only
  rw [filter_not_mem_dedup]

/-- The created collection record, as a named abbreviation for proofs. -/
def createdColl (st : EmbyState) (name : String) (ids : List String) : Collection :=
  Collection.mk st.nextId name (addItems [] ids)

theorem applyCall_create (st : EmbyState) (name : String) (ids : List String) :
    applyCall st (GatewayCall.createCollection name ids) =
      EmbyState.mk (st.collections ++ [createdColl st name ids]) (st.nextId + 1) :=
  rfl

/-- The state after a rebuild, as a named abbreviation for proofs. -/
def rebuiltState (st : EmbyState) (cid : Nat) (rmids addids : List String) : EmbyState :=
  EmbyState.mk (st.collections.map (rebuildUpd cid rmids addids)) st.nextId

theorem rebuild_state_upd2 (st : EmbyState) (cid : Nat) (rmids addids : List String) :
    [GatewayCall.removeFromCollection cid rmids,
     GatewayCall.addToCollection cid addids].foldl applyCall st =
    rebuiltState st cid rmids addids :=
  rebuild_state st cid rmids addids

/-- C2: running `sync` twice with the same desired list and an unchanged
library (hence the same matching function), in real non-clearing mode on
a well-formed gateway state, yields on the second run added = 0,
removed = 0 and already_present equal to the length of the desired
list. -/
theorem C2_sync_idempotent (cfg : SyncConfig) (oracle : MovieRec → Option String)
    (name : String) (movies : List MovieRec) (ov ip dOrd stt : Option String)
    (st : EmbyState)
    (hdry : cfg.dryRun = false) (hclear : cfg.clearCollections = false)
    (hwf : st.WF) (hmatch : ∀ m ∈ movies, (oracle m).isSome) :
    (syncCollection cfg oracle name movies ov ip dOrd stt
        ((syncCollection cfg oracle name movies ov ip dOrd stt st).2.1)).1.added = 0 ∧
    (syncCollection cfg oracle name movies ov ip dOrd stt
        ((syncCollection cfg oracle name movies ov ip dOrd stt st).2.1)).1.removed = 0 ∧
    (syncCollection cfg oracle name movies ov ip dOrd stt
        ((syncCollection cfg oracle name movies ov ip dOrd stt st).2.1)).1.alreadyPresent
      = movies.length := by
  obtain ⟨hids, hlt⟩ := hwf
  by_cases hmv : movies = []
  · subst hmv
    exact ⟨rfl, rfl, rfl⟩
  have hperm := sortStep_perm movies
  have hmatch1 : ∀ m ∈ sortStep movies, (oracle m).isSome :=
    fun m hm => hmatch m (hperm.mem_iff.mp hm)
  have hlen : ((sortStep movies).filterMap oracle).length = movies.length :=
    (filterMap_length_all_some _ _ hmatch1).trans hperm.length_eq
  have hne : ((sortStep movies).filterMap oracle).isEmpty = false := by
    cases hm : (sortStep movies).filterMap oracle with
    | nil =>
      rw [hm] at hlen
      exact absurd (List.length_eq_zero.mp hlen.symm) hmv
    | cons a l => rfl
  have hnodupM : (addItems [] ((sortStep movies).filterMap oracle)).Nodup :=
    addItems_nodup [] _ List.nodup_nil
  have hmemM : ∀ x, x ∈ addItems [] ((sortStep movies).filterMap oracle) ↔
      x ∈ (sortStep movies).filterMap oracle :=
    fun x => by rw [mem_addItems]; simp
  cases hex : getCollections st name with
  | nil =>
    -- first run creates the collection
    rw [sync_create_path cfg oracle name movies ov ip dOrd stt st hdry hex hne]
    rw [applyCall_create st name ((sortStep movies).filterMap oracle)]
    have hfound2 : getCollections
        (EmbyState.mk
          (st.collections ++ [createdColl st name ((sortStep movies).filterMap oracle)])
          (st.nextId + 1)) name =
        createdColl st name ((sortStep movies).filterMap oracle) :: [] := by
      show (st.collections ++
        [createdColl st name ((sortStep movies).filterMap oracle)]).filter _ = _
      rw [List.filter_append]
      have h0 : st.collections.filter
          (fun c => lowerStr c.collName == lowerStr name) = [] := hex
      rw [h0, List.nil_append, List.filter_cons_of_pos (by simp [createdColl])]
      rfl
    have hitems2 : getCollectionItems
        (EmbyState.mk
          (st.collections ++ [createdColl st name ((sortStep movies).filterMap oracle)])
          (st.nextId + 1))
        (createdColl st name ((sortStep movies).filterMap oracle)).collId =
        addItems [] ((sortStep movies).filterMap oracle) := by
      show (((st.collections ++
        [createdColl st name ((sortStep movies).filterMap oracle)]).find?
          (fun c => c.collId ==
            (createdColl st name ((sortStep movies).filterMap oracle)).collId)).map
          (fun c => c.items)).getD [] = _
      have hf1 : st.collections.find? (fun c => c.collId ==
          (createdColl st name ((sortStep movies).filterMap oracle)).collId) = none :=
        List.find?_eq_none.mpr (fun x hx => by
          simp only [createdColl, beq_iff_eq, decide_eq_true_eq]
          exact Nat.ne_of_lt (hlt x hx))
      rw [List.find?_append, hf1, Option.none_or]
      rw [List.find?_cons_of_pos _ (by simp)]
      rfl
    obtain ⟨ha2, hr2, hs2, _⟩ := sync_update_path cfg oracle name movies ov ip dOrd stt
      (EmbyState.mk
        (st.collections ++ [createdColl st name ((sortStep movies).filterMap oracle)])
        (st.nextId + 1))
      (createdColl st name ((sortStep movies).filterMap oracle)) []
      (updateCollection false cfg.removeMissing
        (createdColl st name ((sortStep movies).filterMap oracle)).collId
        (addItems [] ((sortStep movies).filterMap oracle))
        ((sortStep movies).filterMap oracle))
      hclear hfound2 hne (by rw [hdry, hitems2])
    have hsm := updateCollection_same_members cfg.removeMissing
      (createdColl st name ((sortStep movies).filterMap oracle)).collId
      (addItems [] ((sortStep movies).filterMap oracle))
      ((sortStep movies).filterMap oracle) hnodupM hmemM
    refine ⟨?_, ?_, ?_⟩
    · rw [ha2]
      exact hsm.1
    · rw [hr2]
      exact hsm.2.1
    · rw [hs2]
      exact hsm.2.2.trans hlen
  | cons c rest =>
    have hcm := getCollections_head_mem st name c rest hex
    have hitems1 : getCollectionItems st c.collId = c.items :=
      getCollectionItems_of_mem st c hids hcm.1
    obtain ⟨_, _, _, hst1⟩ := sync_update_path cfg oracle name movies ov ip dOrd stt st
      c rest (updateCollection false cfg.removeMissing c.collId c.items
        ((sortStep movies).filterMap oracle)) hclear hex hne
      (by rw [hdry, hitems1])
    rw [hst1]
    by_cases hcnd : setEqL c.items.dedup ((sortStep movies).filterMap oracle).dedup = true ∧
        c.items.length ≠ ((sortStep movies).filterMap oracle).length
    · -- first run took the no-changes branch: state untouched
      rw [updateCollection_eq_noop false cfg.removeMissing c.collId c.items
        ((sortStep movies).filterMap oracle) hcnd.1 hcnd.2]
      have hstate : ((⟨0, 0, ((sortStep movies).filterMap oracle).length, []⟩ :
          UpdateOutcome)).calls.foldl applyCall st = st := rfl
      rw [hstate]
      obtain ⟨ha2, hr2, hs2, _⟩ := sync_update_path cfg oracle name movies ov ip dOrd stt
        st c rest (updateCollection false cfg.removeMissing c.collId c.items
          ((sortStep movies).filterMap oracle)) hclear hex hne
        (by rw [hdry, hitems1])
      rw [ha2, hr2, hs2, updateCollection_eq_noop false cfg.removeMissing c.collId c.items
        ((sortStep movies).filterMap oracle) hcnd.1 hcnd.2]
      exact ⟨rfl, rfl, hlen⟩
    · -- first run rebuilt the collection
      rw [updateCollection_eq_real cfg.removeMissing c.collId c.items
        ((sortStep movies).filterMap oracle) hcnd]
      dsimp only
      rw [rebuild_state_upd2 st c.collId c.items.dedup
        ((sortStep movies).filterMap oracle)]
      have hfound2 : getCollections
          (rebuiltState st c.collId c.items.dedup ((sortStep movies).filterMap oracle))
          name =
          rebuildUpd c.collId c.items.dedup ((sortStep movies).filterMap oracle) c ::
            rest.map (rebuildUpd c.collId c.items.dedup
              ((sortStep movies).filterMap oracle)) := by
        show getCollections
          (EmbyState.mk (st.collections.map (rebuildUpd c.collId c.items.dedup
            ((sortStep movies).filterMap oracle))) st.nextId) name = _
        rw [getCollections_map_items st name _ (rebuildUpd_collName _ _ _), hex]
        rfl
      have hitems2 : getCollectionItems
          (rebuiltState st c.collId c.items.dedup ((sortStep movies).filterMap oracle))
          c.collId =
          addItems [] ((sortStep movies).filterMap oracle) := by
        show getCollectionItems
          (EmbyState.mk (st.collections.map (rebuildUpd c.collId c.items.dedup
            ((sortStep movies).filterMap oracle))) st.nextId) c.collId = _
        rw [getCollectionItems_map st c.collId _ (rebuildUpd_collId _ _ _)]
        rw [find?_collId_of_nodup st.collections c hids hcm.1]
        show (rebuildUpd c.collId c.items.dedup
          ((sortStep movies).filterMap oracle) c).items = _
        exact rebuildUpd_self_items _ c
      obtain ⟨ha2, hr2, hs2, _⟩ := sync_update_path cfg oracle name movies ov ip dOrd stt
        (rebuiltState st c.collId c.items.dedup ((sortStep movies).filterMap oracle))
        (rebuildUpd c.collId c.items.dedup ((sortStep movies).filterMap oracle) c)
        (rest.map (rebuildUpd c.collId c.items.dedup ((sortStep movies).filterMap oracle)))
        (updateCollection false cfg.removeMissing
          (rebuildUpd c.collId c.items.dedup ((sortStep movies).filterMap oracle) c).collId
          (addItems [] ((sortStep movies).filterMap oracle))
          ((sortStep movies).filterMap oracle))
        hclear hfound2 hne
        (by rw [hdry, rebuildUpd_collId, hitems2])
      have hsm := updateCollection_same_members cfg.removeMissing
        (rebuildUpd c.collId c.items.dedup ((sortStep movies).filterMap oracle) c).collId
        (addItems [] ((sortStep movies).filterMap oracle))
        ((sortStep movies).filterMap oracle) hnodupM hmemM
      refine ⟨?_, ?_, ?_⟩
      · rw [ha2]
        exact hsm.1
      · rw [hr2]
        exact hsm.2.1
      · rw [hs2]
        exact hsm.2.2.trans hlen

/-- Concrete instantiation of `C2_sync_idempotent`: two movies, an oracle
matching each to its title, starting from an empty well-formed gateway. -/
theorem C2_sync_idempotent_witness :
    (syncCollection ⟨false, false, true⟩ (fun m => some m.title) "Picks"
        [⟨"a", none, none, none, none⟩, ⟨"b", none, none, none, none⟩]
        none none none none
        ((syncCollection ⟨false, false, true⟩ (fun m => some m.title) "Picks"
            [⟨"a", none, none, none, none⟩, ⟨"b", none, none, none, none⟩]
            none none none none (EmbyState.mk [] 0)).2.1)).1.added = 0 ∧
    (syncCollection ⟨false, false, true⟩ (fun m => some m.title) "Picks"
        [⟨"a", none, none, none, none⟩, ⟨"b", none, none, none, none⟩]
        none none none none
        ((syncCollection ⟨false, false, true⟩ (fun m => some m.title) "Picks"
            [⟨"a", none, none, none, none⟩, ⟨"b", none, none, none, none⟩]
            none none none none (EmbyState.mk [] 0)).2.1)).1.removed = 0 ∧
    (syncCollection ⟨false, false, true⟩ (fun m => some m.title) "Picks"
        [⟨"a", none, none, none, none⟩, ⟨"b", none, none, none, none⟩]
        none none none none
        ((syncCollection ⟨false, false, true⟩ (fun m => some m.title) "Picks"
            [⟨"a", none, none, none, none⟩, ⟨"b", none, none, none, none⟩]
            none none none none (EmbyState.mk [] 0)).2.1)).1.alreadyPresent = 2 :=
  C2_sync_idempotent ⟨false, false, true⟩ (fun m => some m.title) "Picks"
    [⟨"a", none, none, none, none⟩, ⟨"b", none, none, none, none⟩]
    none none none none (EmbyState.mk [] 0) rfl rfl
    ⟨List.nodup_nil, fun c hc => absurd hc (List.not_mem_nil c)⟩
    (by decide)
